import Mathlib

/-!
Shallow embedding of the userland ADC driver client of `userland/libtock/adc.c`
(petarpenkov/tock). The client is single-threaded and cooperative: kernel
callbacks are delivered only while the client is suspended in `yield_for`.
The embedding makes the file-static client state explicit (`AdcState`), makes
the kernel an oracle (syscall statuses are inputs, callbacks delivered during
a suspension are an input list), and records as traces the two observable
effect kinds the claims talk about: invocations of the user continuous
handler, and issued driver commands.

User handler function pointers are modelled as `Nat` identifiers; an
invocation of handler `h` with sample value `v` is the trace element `(h, v)`.
-/

/-- Mirror of `struct adc_data` from adc.c: the most recent reading and the
"fired" flag set by the sample callback. -/
structure adc_data where
  reading : Int
  fired : Bool
deriving Repr, DecidableEq

/-- Mirror of `struct adc_freq` from adc.c: the achieved-frequency value and
the "computed" flag set by the frequency callback. -/
structure adc_freq where
  value : Int
  computed : Bool
deriving Repr, DecidableEq

/-- Which dispatch routine (with its fixed context) is registered on the
driver's single subscription slot. adc.c only ever registers `adc_cb` with
context `&result` or `adc_freq_cb` with context `&frequency`. -/
inductive RegCb where
  | idle
  | sample
  | freq
deriving Repr, DecidableEq

/-- The file-static client state of adc.c: `result`, `frequency`, `cont_cb`,
plus the kernel-side registration of the single subscription slot. -/
structure AdcState where
  result : adc_data
  frequency : adc_freq
  cont_cb : Option Nat
  registered : RegCb
deriving Repr, DecidableEq

/-- State at process start: statics are zero-initialized (`fired = false`,
`computed = false`, `cont_cb = NULL`), nothing subscribed yet. -/
def initState : AdcState :=
  { result := { reading := 0, fired := false }
    frequency := { value := 0, computed := false }
    cont_cb := Option.none
    registered := RegCb.idle }

/-- adc_cb from adc.c: stores the reading into the result slot and sets
`fired`; then, if a continuous handler is installed, invokes it with the
reading. The returned list records the handler invocations performed, in
order (here at most one), each strictly after the result-slot update. -/
def adc_cb (reading : Int) (s : AdcState) : AdcState × List (Nat × Int) :=
  let s1 := { s with result := { reading := reading, fired := true } }
  match s1.cont_cb with
  | Option.some h => (s1, [(h, reading)])
  | Option.none => (s1, [])

/-- adc_freq_cb from adc.c: stores the achieved value into the frequency slot
and sets `computed`. It never touches `result` or `cont_cb`. -/
def adc_freq_cb (value : Int) (s : AdcState) : AdcState :=
  { s with frequency := { value := value, computed := true } }

/-- Modelled from the spec: delivery of one kernel ADC callback carrying
`value` to whatever routine is registered on the single subscription slot
(spec section 6, `subscribe`; the syscall layer tock.c is not under src/).
Dispatches to the embedded adc.c callback routines. -/
def deliverEvent (value : Int) (s : AdcState) : AdcState × List (Nat × Int) :=
  match s.registered with
  | RegCb.idle => (s, [])
  | RegCb.sample => adc_cb value s
  | RegCb.freq => (adc_freq_cb value s, [])

/-- Delivery of a whole sequence of kernel callbacks, one at a time, with the
handler-invocation traces concatenated in delivery order. -/
def deliverAll (events : List Int) (s : AdcState) : AdcState × List (Nat × Int) :=
  match events with
  | [] => (s, [])
  | v :: rest =>
    ((deliverAll rest (deliverEvent v s).1).1,
     (deliverEvent v s).2 ++ (deliverAll rest (deliverEvent v s).1).2)

/-- Modelled from the spec: `yield_for(flag)` cooperatively suspends, letting
kernel callbacks be delivered one at a time, and resumes only once the flag
is true (spec sections 5 and 6: no spurious wakeups, unbounded wait). The
result is `Option.none` when the supplied callbacks never set the flag, i.e.
the call stays suspended forever. -/
def yieldFor (flag : AdcState → Bool) (events : List Int) (s : AdcState) :
    Option (AdcState × List (Nat × Int)) :=
  if flag s then Option.some (s, [])
  else
    match events with
    | [] => Option.none
    | v :: rest =>
      match yieldFor flag rest (deliverEvent v s).1 with
      | Option.none => Option.none
      | Option.some (s2, tr) => Option.some (s2, (deliverEvent v s).2 ++ tr)

/-- adc_set_callback from adc.c: `subscribe(DRIVER_NUM_ADC, 0, cb, args)`.
Modelled from the spec: the kernel returns `status`; on success the given
routine replaces whatever was registered on the single subscription slot, a
failed subscribe leaves the registration unchanged. -/
def adc_set_callback (callback : RegCb) (status : Int) (s : AdcState) :
    Int × AdcState :=
  if status < 0 then (status, s)
  else (status, { s with registered := callback })

/-- adc_single_sample from adc.c: `command(DRIVER_NUM_ADC, 2, channel)` with
`channel` a uint8_t. Returns the kernel status and the issued
(command number, argument) pair. -/
def adc_single_sample (channel : Nat) (status : Int) : Int × Nat × Nat :=
  (status, 2, channel % 2^8)

/-- The packed argument `(frequency << 8) | channel` computed inside
adc_cont_sample, with the uint32_t shift wrapping modulo 2^32 and the
uint8_t channel occupying the low 8 bits. -/
def chan_freq (channel frequency : Nat) : Nat :=
  (((frequency % 2^32) <<< 8) % 2^32) ||| (channel % 2^8)

/-- adc_cont_sample from adc.c: `command(DRIVER_NUM_ADC, 3, chan_freq)`.
Returns the kernel status and the issued (command number, argument) pair. -/
def adc_cont_sample (channel frequency : Nat) (status : Int) : Int × Nat × Nat :=
  (status, 3, chan_freq channel frequency)

/-- adc_cancel_sampling from adc.c: `command(DRIVER_NUM_ADC, 4, 0)` and
nothing else — in particular it reads or writes none of the client state,
which is threaded through unchanged. -/
def adc_cancel_sampling (status : Int) (s : AdcState) : Int × AdcState :=
  (status, s)

/-- adc_compute_frequency from adc.c: `command(DRIVER_NUM_ADC, 5, frequency)`
with `frequency` a uint32_t. Returns the kernel status and the issued
(command number, argument) pair. -/
def adc_compute_frequency (frequency : Nat) (status : Int) : Int × Nat × Nat :=
  (status, 5, frequency % 2^32)

/-- The C conversion of a signed `int` value to `uint32_t` (reduction modulo
2^32, C11 6.3.1.3p2). -/
def toUInt32 (i : Int) : Nat := (i % 2^32).toNat

/-- adc_read_single_sample from adc.c, line by line: clear `cont_cb`, clear
`result.fired`, subscribe `adc_cb` (propagating a negative status), issue the
single-sample command (propagating a negative status), wait for the callback
in `yield_for(&result.fired)`, return `result.reading`. `subStatus` and
`cmdStatus` are the statuses the kernel returns from the two syscalls, and
`events` are the callbacks delivered while suspended. The result is
`Option.none` when the call suspends forever, otherwise
(returned int, final state, handler invocations performed). -/
def adc_read_single_sample (channel : Nat) (subStatus cmdStatus : Int)
    (events : List Int) (s : AdcState) :
    Option (Int × AdcState × List (Nat × Int)) :=
  let s0 := { s with cont_cb := Option.none }
  let s1 := { s0 with result := { s0.result with fired := false } }
  let p := adc_set_callback RegCb.sample subStatus s1
  if p.1 < 0 then Option.some (p.1, p.2, [])
  else
    let c := adc_single_sample channel cmdStatus
    if c.1 < 0 then Option.some (c.1, p.2, [])
    else
      match yieldFor (fun st => st.result.fired) events p.2 with
      | Option.none => Option.none
      | Option.some (s2, tr) => Option.some (s2.result.reading, s2, tr)

/-- adc_read_cont_sample from adc.c, line by line: install `cb` as `cont_cb`
first, then subscribe `adc_cb` (propagating a negative status), then issue
the continuous-sample command and return its status. `cb` is the identifier
of the user handler. Returns (returned int, final state, issued commands). -/
def adc_read_cont_sample (channel frequency : Nat) (cb : Nat)
    (subStatus cmdStatus : Int) (s : AdcState) :
    Int × AdcState × List (Nat × Nat) :=
  let s0 := { s with cont_cb := Option.some cb }
  let p := adc_set_callback RegCb.sample subStatus s0
  if p.1 < 0 then (p.1, p.2, [])
  else
    let c := adc_cont_sample channel frequency cmdStatus
    (c.1, p.2, [(c.2.1, c.2.2)])

/-- adc_nearest_sampling_freq from adc.c, under the evident intent. As
written the C function is ill-formed: its parameter `uint32_t frequency`
shadows the file-static `struct adc_freq frequency`, so `frequency.computed`
and `frequency.value` are member accesses on a scalar (a constraint
violation; the file does not compile). The embedding resolves those member
accesses to the static struct — the only reading under which the function
has any meaning, and the one its comments describe: clear `computed`,
subscribe `adc_freq_cb` with the frequency slot as context (propagating a
negative status), issue the compute-frequency command (propagating a
negative status), wait in `yield_for(&frequency.computed)`, return
`frequency.value`. The C return type is uint32_t, so every returned `int`
(error statuses, the stored value) passes through `toUInt32`. The result is
`Option.none` when the call suspends forever, otherwise (returned uint32,
final state, handler invocations, issued commands). -/
def adc_nearest_sampling_freq (frequency : Nat) (subStatus cmdStatus : Int)
    (events : List Int) (s : AdcState) :
    Option (Nat × AdcState × List (Nat × Int) × List (Nat × Nat)) :=
  let f := frequency % 2^32
  let s1 := { s with frequency := { s.frequency with computed := false } }
  let p := adc_set_callback RegCb.freq subStatus s1
  if p.1 < 0 then Option.some (toUInt32 p.1, p.2, [], [])
  else
    let c := adc_compute_frequency f cmdStatus
    if c.1 < 0 then Option.some (toUInt32 c.1, p.2, [], [(c.2.1, c.2.2)])
    else
      match yieldFor (fun st => st.frequency.computed) events p.2 with
      | Option.none => Option.none
      | Option.some (s2, tr) =>
        Option.some (toUInt32 s2.frequency.value, s2, tr, [(c.2.1, c.2.2)])

/-- Decoder written from the spec's words (section 4.2 / section 8: the low
8 bits carry the channel); no decoder exists in the source. -/
def unpack_channel (arg : Nat) : Nat := arg % 2^8

/-- Decoder written from the spec's words (the high 24 bits carry the
frequency); no decoder exists in the source. -/
def unpack_freq (arg : Nat) : Nat := arg / 2^8

/-! ## Arithmetic helpers for the packed command argument -/

lemma two_pow_mul_or_of_lt {k a c : Nat} (hc : c < 2^k) :
    (2^k * a) ||| c = 2^k * a + c := by
  apply Nat.eq_of_testBit_eq
  intro i
  rcases Nat.lt_or_ge i k with hik | hik
  · have h0 : (2^k * a) % 2^k = 0 := Nat.mul_mod_right _ _
    have h1 : (2^k * a + c) % 2^k = c := by
      rw [Nat.mul_add_mod]
      exact Nat.mod_eq_of_lt hc
    have t1 : Nat.testBit (2^k * a) i = false := by
      have h2 := Nat.testBit_mod_two_pow (2^k * a) k i
      rw [h0] at h2
      simp [hik] at h2
      exact h2
    have t2 : Nat.testBit (2^k * a + c) i = Nat.testBit c i := by
      have h3 := Nat.testBit_mod_two_pow (2^k * a + c) k i
      rw [h1] at h3
      simp [hik] at h3
      exact h3.symm
    simp [Nat.testBit_or, t1, t2]
  · have hci : c < 2^i :=
      lt_of_lt_of_le hc (Nat.pow_le_pow_right (by omega) hik)
    have hcb : Nat.testBit c i = false := Nat.testBit_lt_two_pow hci
    have e1 : (2^k * a + c) >>> k = a := by
      rw [Nat.shiftRight_eq_div_pow, Nat.mul_add_div (Nat.two_pow_pos k),
        Nat.div_eq_of_lt hc]
      omega
    have e2 : (2^k * a) >>> k = a := by
      rw [Nat.shiftRight_eq_div_pow]
      exact Nat.mul_div_cancel_left a (Nat.two_pow_pos k)
    have t1 : Nat.testBit (2^k * a + c) i = Nat.testBit a (i - k) := by
      conv_lhs => rw [show i = k + (i - k) by omega]
      rw [← Nat.testBit_shiftRight, e1]
    have t2 : Nat.testBit (2^k * a) i = Nat.testBit a (i - k) := by
      conv_lhs => rw [show i = k + (i - k) by omega]
      rw [← Nat.testBit_shiftRight, e2]
    simp [Nat.testBit_or, t1, t2, hcb]

lemma chan_freq_eq (channel frequency : Nat) :
    chan_freq channel frequency = 2^8 * (frequency % 2^24) + channel % 2^8 := by
  unfold chan_freq
  have h1 : ((frequency % 2^32) <<< 8) % 2^32 = 2^8 * (frequency % 2^24) := by
    rw [Nat.shiftLeft_eq]
    have h32 : (2:Nat)^32 = 2^24 * 2^8 := by norm_num
    rw [h32, Nat.mul_mod_mul_right,
      Nat.mod_mod_of_dvd frequency (dvd_mul_right ((2:Nat)^24) (2^8))]
    ring
  rw [h1]
  exact two_pow_mul_or_of_lt (Nat.mod_lt _ (by norm_num))

/-- Claim C4: the continuous-sample command argument packs the channel into
the low 8 bits and the frequency into the high 24 bits; for every channel in
8-bit range and every frequency within 24 bits, encoding then decoding
round-trips exactly; for a wider frequency only its high-order bits are lost
(the decoded frequency is the frequency mod 2^24), and re-packing the
truncated frequency yields the same argument. -/
theorem c4_chan_freq_packing (c f : Nat) (hc : c < 2^8) :
    unpack_channel (chan_freq c f) = c ∧
    unpack_freq (chan_freq c f) = f % 2^24 ∧
    (f < 2^24 → unpack_freq (chan_freq c f) = f) ∧
    chan_freq c (unpack_freq (chan_freq c f)) = chan_freq c f := by
  have e8 : (2:Nat)^8 = 256 := by norm_num
  have e24 : (2:Nat)^24 = 16777216 := by norm_num
  have hfreq : unpack_freq (chan_freq c f) = f % 2^24 := by
    unfold unpack_freq
    rw [chan_freq_eq, e8, e24]
    omega
  refine ⟨?_, hfreq, ?_, ?_⟩
  · unfold unpack_channel
    rw [chan_freq_eq, e8, e24]
    rw [e8] at hc
    omega
  · intro hf
    rw [hfreq]
    exact Nat.mod_eq_of_lt hf
  · rw [hfreq, chan_freq_eq, chan_freq_eq,
      Nat.mod_mod_of_dvd f (dvd_refl ((2:Nat)^24))]

/-- Concrete check of Claim C4 at channel 3 and the 25-bit frequency
2^24 + 5: the channel round-trips, the decoded frequency is the truncation
5, and re-packing the truncation reproduces the argument. -/
theorem c4_chan_freq_packing_witness :
    (3 : Nat) < 2^8 ∧
    unpack_channel (chan_freq 3 (2^24 + 5)) = 3 ∧
    unpack_freq (chan_freq 3 (2^24 + 5)) = (2^24 + 5) % 2^24 ∧
    chan_freq 3 (unpack_freq (chan_freq 3 (2^24 + 5))) = chan_freq 3 (2^24 + 5) :=
  ⟨by norm_num,
   (c4_chan_freq_packing 3 (2^24 + 5) (by norm_num)).1,
   (c4_chan_freq_packing 3 (2^24 + 5) (by norm_num)).2.1,
   (c4_chan_freq_packing 3 (2^24 + 5) (by norm_num)).2.2.2⟩

/-! ## Dispatch and suspension invariants -/

lemma deliverEvent_cont_cb (v : Int) (s : AdcState) :
    (deliverEvent v s).1.cont_cb = s.cont_cb := by
  obtain ⟨res, fr, cb, reg⟩ := s
  cases reg <;> cases cb <;> rfl

lemma deliverEvent_registered (v : Int) (s : AdcState) :
    (deliverEvent v s).1.registered = s.registered := by
  obtain ⟨res, fr, cb, reg⟩ := s
  cases reg <;> cases cb <;> rfl

lemma deliverEvent_calls_of_none (v : Int) (s : AdcState)
    (h : s.cont_cb = Option.none) : (deliverEvent v s).2 = [] := by
  obtain ⟨res, fr, cb, reg⟩ := s
  simp only [AdcState.cont_cb] at h
  subst h
  cases reg <;> rfl

lemma deliverEvent_calls_of_freq (v : Int) (s : AdcState)
    (h : s.registered = RegCb.freq) : (deliverEvent v s).2 = [] := by
  obtain ⟨res, fr, cb, reg⟩ := s
  simp only [AdcState.registered] at h
  subst h
  cases cb <;> rfl

lemma deliverEvent_calls_of_sample (v : Int) (s : AdcState) (h : Nat)
    (h1 : s.cont_cb = Option.some h) (h2 : s.registered = RegCb.sample) :
    (deliverEvent v s).2 = [(h, v)] := by
  obtain ⟨res, fr, cb, reg⟩ := s
  simp only [AdcState.cont_cb] at h1
  simp only [AdcState.registered] at h2
  subst h1
  subst h2
  rfl

lemma yieldFor_cont_cb_none (flag : AdcState → Bool) (evs : List Int) :
    ∀ s s2 tr, s.cont_cb = Option.none →
      yieldFor flag evs s = Option.some (s2, tr) →
      s2.cont_cb = Option.none ∧ tr = [] := by
  induction evs with
  | nil =>
    intro s s2 tr h hy
    rw [yieldFor] at hy
    split at hy
    · cases hy
      exact ⟨h, rfl⟩
    · cases hy
  | cons v rest ih =>
    intro s s2 tr h hy
    rw [yieldFor] at hy
    split at hy
    · cases hy
      exact ⟨h, rfl⟩
    · split at hy
      · cases hy
      · rename_i s3 tr3 heq
        cases hy
        have hcc : (deliverEvent v s).1.cont_cb = Option.none := by
          rw [deliverEvent_cont_cb]
          exact h
        obtain ⟨ha, hb⟩ := ih _ _ _ hcc heq
        subst hb
        exact ⟨ha, by rw [deliverEvent_calls_of_none v s h]; rfl⟩

lemma yieldFor_of_flag (flag : AdcState → Bool) (evs : List Int) (s : AdcState)
    (h : flag s = true) : yieldFor flag evs s = Option.some (s, []) := by
  cases evs <;> rw [yieldFor] <;> simp [h]

lemma adc_cb_of_some (r : Int) (s : AdcState) (h : Nat)
    (h1 : s.cont_cb = Option.some h) :
    (adc_cb r s).1 = { s with result := { reading := r, fired := true } } ∧
    (adc_cb r s).2 = [(h, r)] := by
  obtain ⟨res, fr, cb, reg⟩ := s
  simp only [AdcState.cont_cb] at h1
  subst h1
  exact ⟨rfl, rfl⟩

lemma deliverEvent_sample_state (v : Int) (s : AdcState)
    (h2 : s.registered = RegCb.sample) :
    (deliverEvent v s).1 = { s with result := { reading := v, fired := true } } := by
  obtain ⟨res, fr, cb, reg⟩ := s
  simp only [AdcState.registered] at h2
  subst h2
  cases cb <;> rfl

lemma deliverAll_trace_of_sample (h : Nat) (vs : List Int) :
    ∀ s : AdcState, s.cont_cb = Option.some h → s.registered = RegCb.sample →
      (deliverAll vs s).2 = vs.map (fun v => (h, v)) := by
  induction vs with
  | nil =>
    intro s h1 h2
    rfl
  | cons v rest ih =>
    intro s h1 h2
    have h1x : (deliverEvent v s).1.cont_cb = Option.some h := by
      rw [deliverEvent_cont_cb]
      exact h1
    have h2x : (deliverEvent v s).1.registered = RegCb.sample := by
      rw [deliverEvent_registered]
      exact h2
    simp only [deliverAll, List.map]
    rw [deliverEvent_calls_of_sample v s h h1 h2, ih _ h1x h2x]
    rfl

/-! ## Claim theorems -/

/-- Claim C1, counterexample: starting a continuous stream with handler 7 and
then calling adc_cancel_sampling leaves the ContinuousHandler reference
installed (not cleared), and one late callback carrying 9 still invokes
handler 7 — refuting both parts of the claim at this concrete input. -/
theorem c1_cancel_counterexample :
    ((adc_cancel_sampling 0
        ((adc_read_cont_sample 0 1000 7 0 0 initState).2.1)).2.cont_cb
      ≠ Option.none) ∧
    (deliverEvent 9 (adc_cancel_sampling 0
        ((adc_read_cont_sample 0 1000 7 0 0 initState).2.1)).2).2 = [(7, 9)] := by
  decide

/-- Claim C1 as amended: adc_cancel_sampling issues the cancel command and
returns its status but leaves the whole client state — in particular the
ContinuousHandler reference — unchanged, so one late sample callback after
the cancellation still invokes the previously-installed handler. -/
theorem c1_cancel_leaves_state_unchanged (st : Int) (s : AdcState) (h : Nat)
    (v : Int) (h1 : s.cont_cb = Option.some h)
    (h2 : s.registered = RegCb.sample) :
    adc_cancel_sampling st s = (st, s) ∧
    (deliverEvent v (adc_cancel_sampling st s).2).2 = [(h, v)] :=
  ⟨rfl, deliverEvent_calls_of_sample v s h h1 h2⟩

/-- Concrete check of the amended Claim C1: cancel with status 0 after
starting a stream with handler 7; the state is returned unchanged and a late
callback carrying 11 invokes handler 7. -/
theorem c1_cancel_leaves_state_unchanged_witness :
    adc_cancel_sampling 0 ((adc_read_cont_sample 0 1000 7 0 0 initState).2.1) =
      (0, (adc_read_cont_sample 0 1000 7 0 0 initState).2.1) ∧
    (deliverEvent 11 (adc_cancel_sampling 0
        ((adc_read_cont_sample 0 1000 7 0 0 initState).2.1)).2).2 = [(7, 11)] :=
  c1_cancel_leaves_state_unchanged 0
    ((adc_read_cont_sample 0 1000 7 0 0 initState).2.1) 7 11
    (by decide) (by decide)

/-- Claim C2: with successful syscalls, adc_read_single_sample suspends until
the ready flag is set (with no delivered callback it never returns) and
returns exactly the value delivered by the matching sample callback — for
every channel and every prior state, so the result never comes from the
FrequencyNegotiation slot (the frequency slot is returned untouched) nor
from a stale continuous session (the handler reference was cleared and the
handler trace is empty). -/
theorem c2_read_single_returns_delivered_sample (ch : Nat) (sub cmd v : Int)
    (rest : List Int) (s : AdcState) (hsub : 0 ≤ sub) (hcmd : 0 ≤ cmd) :
    adc_read_single_sample ch sub cmd [] s = Option.none ∧
    adc_read_single_sample ch sub cmd (v :: rest) s =
      Option.some (v, { result := { reading := v, fired := true },
                        frequency := s.frequency,
                        cont_cb := Option.none,
                        registered := RegCb.sample }, []) := by
  have h1 : ¬ sub < 0 := by omega
  have h2 : ¬ cmd < 0 := by omega
  constructor
  · simp [adc_read_single_sample, adc_set_callback, adc_single_sample,
      yieldFor, h1, h2]
  · have hy := yieldFor_of_flag (fun st => st.result.fired) rest
      { result := { reading := v, fired := true }, frequency := s.frequency,
        cont_cb := Option.none, registered := RegCb.sample } rfl
    simp [adc_read_single_sample, adc_set_callback, adc_single_sample,
      yieldFor, deliverEvent, adc_cb, h1, h2, hy]

/-- Concrete check of Claim C2: read_single on channel 0 with a callback
delivering 512 returns 512, leaving the frequency slot untouched. -/
theorem c2_read_single_returns_delivered_sample_witness :
    adc_read_single_sample 0 0 0 [] initState = Option.none ∧
    adc_read_single_sample 0 0 0 [512] initState =
      Option.some (512, { result := { reading := 512, fired := true },
                          frequency := initState.frequency,
                          cont_cb := Option.none,
                          registered := RegCb.sample }, []) :=
  c2_read_single_returns_delivered_sample 0 0 0 512 [] initState
    (by decide) (by decide)

/-- Claim C6: each sample callback dispatch first updates PendingResult (the
reading is stored and the ready flag set in the state in which the handler is
then invoked) and only then invokes the installed ContinuousHandler with that
same value; delivering any sequence of callbacks invokes the handler once per
value, in delivery order, never out of order. -/
theorem c6_dispatch_updates_then_invokes_in_order (h : Nat) (vs : List Int)
    (s : AdcState) (h1 : s.cont_cb = Option.some h)
    (h2 : s.registered = RegCb.sample) :
    (deliverAll vs s).2 = vs.map (fun v => (h, v)) ∧
    ∀ r : Int, (adc_cb r s).1.result = { reading := r, fired := true } ∧
      (adc_cb r s).2 = [(h, r)] := by
  refine ⟨deliverAll_trace_of_sample h vs s h1 h2, fun r => ?_⟩
  obtain ⟨ha, hb⟩ := adc_cb_of_some r s h h1
  exact ⟨by rw [ha], hb⟩

/-- Concrete check of Claim C6: after start_continuous(0, 1000, handler 7),
three callbacks delivering 1, 2, 3 invoke handler 7 with 1, then 2, then 3,
in that order. -/
theorem c6_dispatch_updates_then_invokes_in_order_witness :
    (deliverAll [1, 2, 3]
      ((adc_read_cont_sample 0 1000 7 0 0 initState).2.1)).2 =
      [(7, 1), (7, 2), (7, 3)] :=
  (c6_dispatch_updates_then_invokes_in_order 7 [1, 2, 3]
    ((adc_read_cont_sample 0 1000 7 0 0 initState).2.1)
    (by decide) (by decide)).1

/-- Claim C10: adc_read_cont_sample installs the new handler into the shared
ContinuousHandler reference before issuing the subscribe syscall, so in every
outcome — including a failed subscribe, where the failing status is returned
and no command is issued — the newly-installed handler is in place and the
previous one has been replaced with no rollback. -/
theorem c10_start_continuous_no_rollback (ch fr cb : Nat) (sub cmd : Int)
    (s : AdcState) :
    ((adc_read_cont_sample ch fr cb sub cmd s).2.1.cont_cb = Option.some cb) ∧
    (sub < 0 →
      adc_read_cont_sample ch fr cb sub cmd s =
        (sub, { s with cont_cb := Option.some cb }, [])) ∧
    (0 ≤ sub →
      adc_read_cont_sample ch fr cb sub cmd s =
        (cmd, { s with cont_cb := Option.some cb, registered := RegCb.sample },
          [(3, chan_freq ch fr)])) := by
  by_cases hs : sub < 0
  · refine ⟨?_, fun _ => ?_, fun hns => absurd hs (by omega)⟩
    · simp [adc_read_cont_sample, adc_set_callback, hs]
    · simp [adc_read_cont_sample, adc_set_callback, hs]
  · refine ⟨?_, fun hcon => absurd hcon hs, fun _ => ?_⟩
    · simp [adc_read_cont_sample, adc_set_callback, adc_cont_sample, hs]
    · simp [adc_read_cont_sample, adc_set_callback, adc_cont_sample, hs]

/-- Concrete check of Claim C10: with a previous handler 3 installed and a
failing subscribe (status -3), start_continuous returns -3 and the new
handler 7 is installed anyway — the previous handler is already gone. -/
theorem c10_start_continuous_no_rollback_witness :
    ((adc_read_cont_sample 0 1000 7 (-3) 0
        { initState with cont_cb := Option.some 3 }).2.1.cont_cb
      = Option.some 7) ∧
    adc_read_cont_sample 0 1000 7 (-3) 0
        { initState with cont_cb := Option.some 3 } =
      (-3, { initState with cont_cb := Option.some 7 }, []) :=
  ⟨(c10_start_continuous_no_rollback 0 1000 7 (-3) 0
      { initState with cont_cb := Option.some 3 }).1,
   ((c10_start_continuous_no_rollback 0 1000 7 (-3) 0
      { initState with cont_cb := Option.some 3 }).2.1 (by decide)).trans
     (by decide)⟩

/-- Claim C3: adc_read_single_sample clears the continuous handler before
issuing its own request, so in every returning outcome the final state holds
no ContinuousHandler, no handler invocation happens during the call, and a
callback delivered afterwards invokes no handler either. -/
theorem c3_read_single_stops_continuous_handler (ch : Nat) (sub cmd : Int)
    (evs : List Int) (s : AdcState) (r : Int) (s2 : AdcState)
    (tr : List (Nat × Int))
    (h : adc_read_single_sample ch sub cmd evs s = Option.some (r, s2, tr)) :
    s2.cont_cb = Option.none ∧ tr = [] ∧
    ∀ v : Int, (deliverEvent v s2).2 = [] := by
  by_cases hs : sub < 0
  · simp [adc_read_single_sample, adc_set_callback, hs] at h
    obtain ⟨h1, h2, h3⟩ := h
    subst h2
    subst h3
    exact ⟨rfl, rfl, fun v => deliverEvent_calls_of_none v _ rfl⟩
  · by_cases hc : cmd < 0
    · simp [adc_read_single_sample, adc_set_callback, adc_single_sample,
        hs, hc] at h
      obtain ⟨h1, h2, h3⟩ := h
      subst h2
      subst h3
      exact ⟨rfl, rfl, fun v => deliverEvent_calls_of_none v _ rfl⟩
    · simp [adc_read_single_sample, adc_set_callback, adc_single_sample,
        hs, hc] at h
      split at h
      · cases h
      · rename_i s3 tr3 heq
        simp only [Option.some.injEq, Prod.mk.injEq] at h
        obtain ⟨h1, h2, h3⟩ := h
        subst h2
        subst h3
        obtain ⟨hn, ht⟩ := yieldFor_cont_cb_none _ _ _ _ _ rfl heq
        exact ⟨hn, ht, fun v => deliverEvent_calls_of_none v _ hn⟩

/-- Concrete check of Claim C3: a read_single call made while handler 3 was
installed (continuous session active) returns with the handler cleared, an
empty handler trace, and a later callback invoking no handler. -/
theorem c3_read_single_stops_continuous_handler_witness :
    ({ result := { reading := 5, fired := true },
       frequency := { value := 9, computed := true },
       cont_cb := Option.none, registered := RegCb.sample } : AdcState).cont_cb
      = Option.none ∧
    ([] : List (Nat × Int)) = [] ∧
    ∀ v : Int, (deliverEvent v
      { result := { reading := 5, fired := true },
        frequency := { value := 9, computed := true },
        cont_cb := Option.none, registered := RegCb.sample }).2 = [] :=
  c3_read_single_stops_continuous_handler 0 0 0 [5]
    { result := { reading := 0, fired := false },
      frequency := { value := 9, computed := true },
      cont_cb := Option.some 3, registered := RegCb.sample }
    5
    { result := { reading := 5, fired := true },
      frequency := { value := 9, computed := true },
      cont_cb := Option.none, registered := RegCb.sample }
    [] (by decide)


/-- Claim C7: when the subscribe or the single-sample command syscall inside
adc_read_single_sample returns a negative status, that status is returned
immediately — the same explicit result for every list of pending callbacks,
so no suspension happens — and the returned state has the PendingResult
ready flag false and no handler invocation was made. -/
theorem c7_read_single_error_propagation (ch : Nat) (sub cmd : Int)
    (evs : List Int) (s : AdcState) :
    (sub < 0 →
      adc_read_single_sample ch sub cmd evs s =
        Option.some (sub, { s with
          cont_cb := Option.none
          result := { s.result with fired := false } }, [])) ∧
    (0 ≤ sub → cmd < 0 →
      adc_read_single_sample ch sub cmd evs s =
        Option.some (cmd, { s with
          cont_cb := Option.none
          result := { s.result with fired := false }
          registered := RegCb.sample }, [])) := by
  constructor
  · intro hs
    simp [adc_read_single_sample, adc_set_callback, hs]
  · intro hs hc
    have hs2 : ¬ sub < 0 := by omega
    simp [adc_read_single_sample, adc_set_callback, adc_single_sample, hs2, hc]

/-- Concrete check of Claim C7: a failing subscribe (-1) and a failing
command (-2) each return their status at once — even with a callback
pending — with the ready flag left false. -/
theorem c7_read_single_error_propagation_witness :
    adc_read_single_sample 0 (-1) 0 [3] initState =
      Option.some (-1, { initState with
        cont_cb := Option.none
        result := { initState.result with fired := false } }, []) ∧
    adc_read_single_sample 0 0 (-2) [3] initState =
      Option.some (-2, { initState with
        cont_cb := Option.none
        result := { initState.result with fired := false }
        registered := RegCb.sample }, []) :=
  ⟨(c7_read_single_error_propagation 0 (-1) 0 [3] initState).1 (by decide),
   (c7_read_single_error_propagation 0 0 (-2) [3] initState).2
     (by decide) (by decide)⟩

/-- Claim C5 (supporting theorem for the code_bug verdict, proved of the
intent-resolved embedding documented at adc_nearest_sampling_freq, since the
C function as written does not compile): the function resets the computed
flag — with no delivered callback it suspends forever, even if the flag was
true on entry — registers the frequency dispatch routine on the subscription
slot, issues the compute-frequency command (opcode 5) with the requested
frequency, and once a callback delivers an achieved value it returns exactly
that value, with no handler invocations. -/
theorem c5_nearest_freq_algorithm (fr : Nat) (sub cmd a : Int)
    (rest : List Int) (s : AdcState) (hsub : 0 ≤ sub) (hcmd : 0 ≤ cmd)
    (ha : 0 ≤ a) (ha2 : a < 2^32) :
    adc_nearest_sampling_freq fr sub cmd [] s = Option.none ∧
    adc_nearest_sampling_freq fr sub cmd (a :: rest) s =
      Option.some (a.toNat, { s with
        frequency := { value := a, computed := true }
        registered := RegCb.freq }, [], [(5, fr % 2^32)]) := by
  have h1 : ¬ sub < 0 := by omega
  have h2 : ¬ cmd < 0 := by omega
  have htu : toUInt32 a = a.toNat := by
    unfold toUInt32
    rw [Int.emod_eq_of_lt ha ha2]
  constructor
  · simp [adc_nearest_sampling_freq, adc_set_callback, adc_compute_frequency,
      yieldFor, h1, h2]
  · have hy := yieldFor_of_flag (fun st => st.frequency.computed) rest
      { s with
        frequency := { value := a, computed := true }
        registered := RegCb.freq } rfl
    simp [adc_nearest_sampling_freq, adc_set_callback, adc_compute_frequency,
      yieldFor, deliverEvent, adc_freq_cb, h1, h2, hy, htu]

/-- Concrete check of Claim C5: requesting 5000 with a callback delivering
4096 returns 4096, and with no callback the call stays suspended. -/
theorem c5_nearest_freq_algorithm_witness :
    adc_nearest_sampling_freq 5000 0 0 [] initState = Option.none ∧
    adc_nearest_sampling_freq 5000 0 0 [4096] initState =
      Option.some (4096, { initState with
        frequency := { value := 4096, computed := true }
        registered := RegCb.freq }, [], [(5, 5000)]) :=
  ⟨(c5_nearest_freq_algorithm 5000 0 0 4096 [] initState
      (by decide) (by decide) (by decide) (by decide)).1,
   (c5_nearest_freq_algorithm 5000 0 0 4096 [] initState
      (by decide) (by decide) (by decide) (by decide)).2⟩

/-- Claim C8, counterexample: with a continuous stream active (handler 7
installed), adc_nearest_sampling_freq(5000) delivering 4096 returns 4096,
yet the handler reference afterwards is still `some 7` — not cleared, as the
claim asserts. -/
theorem c8_handler_not_cleared_counterexample :
    (adc_nearest_sampling_freq 5000 0 0 [4096]
        ((adc_read_cont_sample 0 1000 7 0 0 initState).2.1)).map
      (fun q => (q.1, q.2.1.cont_cb)) = Option.some (4096, Option.some 7) ∧
    Option.some 7 ≠ (Option.none : Option Nat) := by
  decide

/-- Claim C8 as amended: after adc_nearest_sampling_freq is called while a
continuous stream is active, the stream's handler reference is NOT cleared —
it remains installed — but the stream's handler nonetheless stops being
invoked, because the negotiation call overwrote the single shared
subscription slot with the frequency dispatch routine, so a later delivered
callback invokes no handler. -/
theorem c8_nearest_freq_overwrites_registration (fr : Nat) (sub cmd a v : Int)
    (rest : List Int) (s : AdcState) (h : Nat)
    (hcb : s.cont_cb = Option.some h) (hsub : 0 ≤ sub) (hcmd : 0 ≤ cmd) :
    adc_nearest_sampling_freq fr sub cmd (a :: rest) s =
      Option.some (toUInt32 a, { s with
        frequency := { value := a, computed := true }
        registered := RegCb.freq }, [], [(5, fr % 2^32)]) ∧
    ({ s with
       frequency := { value := a, computed := true }
       registered := RegCb.freq } : AdcState).cont_cb = Option.some h ∧
    (deliverEvent v { s with
       frequency := { value := a, computed := true }
       registered := RegCb.freq }).2 = [] := by
  have h1 : ¬ sub < 0 := by omega
  have h2 : ¬ cmd < 0 := by omega
  refine ⟨?_, hcb, deliverEvent_calls_of_freq v _ rfl⟩
  have hy := yieldFor_of_flag (fun st => st.frequency.computed) rest
    { s with
      frequency := { value := a, computed := true }
      registered := RegCb.freq } rfl
  simp [adc_nearest_sampling_freq, adc_set_callback, adc_compute_frequency,
    yieldFor, deliverEvent, adc_freq_cb, h1, h2, hy]

/-- Concrete check of the amended Claim C8: negotiation at 5000 delivering
4096 during a stream with handler 7 returns 4096; afterwards the handler is
still installed but a late callback carrying 9 invokes no handler. -/
theorem c8_nearest_freq_overwrites_registration_witness :
    adc_nearest_sampling_freq 5000 0 0 [4096]
        ((adc_read_cont_sample 0 1000 7 0 0 initState).2.1) =
      Option.some (4096, { result := { reading := 0, fired := false },
                           frequency := { value := 4096, computed := true },
                           cont_cb := Option.some 7,
                           registered := RegCb.freq }, [], [(5, 5000)]) ∧
    ({ result := { reading := 0, fired := false },
       frequency := { value := 4096, computed := true },
       cont_cb := Option.some 7, registered := RegCb.freq } : AdcState).cont_cb
      = Option.some 7 ∧
    (deliverEvent 9 { result := { reading := 0, fired := false },
                      frequency := { value := 4096, computed := true },
                      cont_cb := Option.some 7,
                      registered := RegCb.freq }).2 = [] := by
  have k := c8_nearest_freq_overwrites_registration 5000 0 0 4096 9 []
    ((adc_read_cont_sample 0 1000 7 0 0 initState).2.1) 7
    (by decide) (by decide) (by decide)
  exact ⟨k.1, k.2.1, k.2.2⟩

/-- Claim C9, counterexample: with the subscribe syscall failing with -1,
adc_nearest_sampling_freq(5000) returns 4294967295 = 2^32 - 1 through its
uint32_t return type — a value that is neither negative nor equal to -1, so
the caller does not receive "that negative status". -/
theorem c9_negative_status_counterexample :
    (adc_nearest_sampling_freq 5000 (-1) 0 [] initState).map (fun q => q.1) =
      Option.some 4294967295 ∧
    ¬ ((4294967295 : Int) < 0) ∧ (4294967295 : Int) ≠ (-1 : Int) := by
  decide

/-- Claim C9 as amended: when the subscribe or the compute-frequency command
syscall inside adc_nearest_sampling_freq returns a negative status, the
function does return immediately without suspending (same explicit result
for every pending-callback list), but the value the caller receives is the
status converted to uint32_t (2^32 + status), its sign lost at the return
type. -/
theorem c9_error_early_return_unsigned (fr : Nat) (sub cmd : Int)
    (evs : List Int) (s : AdcState) :
    (sub < 0 →
      adc_nearest_sampling_freq fr sub cmd evs s =
        Option.some (toUInt32 sub, { s with
          frequency := { s.frequency with computed := false } }, [], [])) ∧
    (0 ≤ sub → cmd < 0 →
      adc_nearest_sampling_freq fr sub cmd evs s =
        Option.some (toUInt32 cmd, { s with
          frequency := { s.frequency with computed := false }
          registered := RegCb.freq }, [], [(5, fr % 2^32)])) := by
  constructor
  · intro hs
    simp [adc_nearest_sampling_freq, adc_set_callback, hs]
  · intro hs hc
    have hs2 : ¬ sub < 0 := by omega
    simp [adc_nearest_sampling_freq, adc_set_callback, adc_compute_frequency,
      hs2, hc]

/-- Concrete check of the amended Claim C9: subscribe failing with -1 yields
4294967295, command failing with -2 yields 4294967294, each immediately even
with a callback pending. -/
theorem c9_error_early_return_unsigned_witness :
    adc_nearest_sampling_freq 5000 (-1) 0 [4096] initState =
      Option.some (4294967295, { initState with
        frequency := { initState.frequency with computed := false } }, [], []) ∧
    adc_nearest_sampling_freq 5000 0 (-2) [4096] initState =
      Option.some (4294967294, { initState with
        frequency := { initState.frequency with computed := false }
        registered := RegCb.freq }, [], [(5, 5000)]) :=
  ⟨(c9_error_early_return_unsigned 5000 (-1) 0 [4096] initState).1
      (by decide),
   (c9_error_early_return_unsigned 5000 0 (-2) [4096] initState).2
      (by decide) (by decide)⟩
